import Mathlib

/-!
Verification of the sync-engine specification against the repository source.

The repository ships the Stripe sync worker edge function
(`src/packages/sync-engine/src/supabase/edge-functions/stripe-worker.ts`),
SQL migrations, and an entity schema.  The dispatcher (queue read,
empty-queue bootstrap, per-message processing, acknowledgement and
re-enqueue) is embedded below directly from `stripe-worker.ts`.  The core
engine (`StripeSync.processNext`, the ObjectRun state machine, the cursor
stores) lives in the published npm package and its source is not in this
repository; those parts are modelled from the specification, as marked on
each definition.
-/

namespace SyncEngine

/-! ## Queue dispatcher, embedded from stripe-worker.ts -/

/-- A pgmq message as read by the worker: `msg_id` plus a payload naming one
object type (`{ "object": ... }`). -/
structure Msg where
  msgId : Nat
  object : String
deriving DecidableEq, Repr

/-- Outcome of one `stripeSync.processNext(object)` call as observed by the
worker: either a result record `{processed, hasMore}` or a thrown error. -/
inductive PNResult where
  | ok (processed : Nat) (hasMore : Bool)
  | err (message : String)
deriving DecidableEq, Repr

/-- Per-message record assembled by the worker loop.  `acked` records whether
`pgmq.delete` was called for the message; `sent` records the payload of the
`pgmq.send` re-enqueue call, if one was made (the worker re-enqueues
`{object}` exactly when the result has `hasMore`).  The remaining fields are
the JSON fields of the entry the worker returns in `results`. -/
structure MsgOutcome where
  object : String
  acked : Bool
  sent : Option String
  processed : Nat
  hasMore : Bool
  error : Option String
deriving DecidableEq, Repr

/-- One iteration of the worker's `messages.map` body (stripe-worker.ts lines
152-185): call `processNext(object)`; on success delete the message and, when
`hasMore`, send `{object}` back to the queue; on a thrown error neither
delete nor send, and return `processed: 0, hasMore: false` with the error
message.  The outcome depends only on this message and the engine's answer
for its object type. -/
def processMsg (pn : String → PNResult) (m : Msg) : MsgOutcome :=
  match pn m.object with
  | .ok p h => { object := m.object, acked := true,
                 sent := if h then some m.object else none,
                 processed := p, hasMore := h, error := none }
  | .err e => { object := m.object, acked := false, sent := none,
                processed := 0, hasMore := false, error := some e }

/-- The worker's response, by branch: `skipped` (empty batch but
`queue_length > 0`, "messages still in flight"), `bootstrapped` (empty batch
and zero in flight: `send_batch` of one message per object type), or
`processed` (non-empty batch handled by the parallel loop). -/
inductive WorkerResult where
  | skipped
  | bootstrapped (objects : List String)
  | processed (outcomes : List MsgOutcome)
deriving DecidableEq, Repr

/-- The dispatcher body of stripe-worker.ts (lines 100-185).  `batch` is
what `pgmq.read` returned, `inFlight` is `pgmq.metrics(...).queue_length`
(consulted only when the batch is empty), `objects` is the object-type list
returned by `joinOrCreateSyncRun` for the bootstrap fan-out, and `pn` gives
`processNext`'s answer per object type.  The cron-schedule downgrade in the
empty-queue branch only edits the `cron.job` row; it touches neither the
queue nor any run state and is not represented here. -/
def dispatch (batch : List Msg) (inFlight : Nat) (objects : List String)
    (pn : String → PNResult) : WorkerResult :=
  if batch.isEmpty then
    if 0 < inFlight then .skipped
    else .bootstrapped objects
  else .processed (batch.map (processMsg pn))

/-- Objects enqueued by the bootstrap branch (empty outside it). -/
def enqueuedObjects : WorkerResult → List String
  | .bootstrapped os => os
  | _ => []

/-- Whether the dispatcher took the bootstrap branch. -/
def isBootstrap : WorkerResult → Bool
  | .bootstrapped _ => true
  | _ => false

/-- Per-message outcomes returned by the processing branch (empty outside it). -/
def outcomesOf : WorkerResult → List MsgOutcome
  | .processed rs => rs
  | _ => []

/-! ## Trigger channels (C10)

The worker's bootstrap branch calls `joinOrCreateSyncRun('worker')`
(stripe-worker.ts line 134), while its processing branch calls
`stripeSync.processNext(object)` with no parameters (line 156). -/

/-- Channel label the worker passes when bootstrapping (source:
`joinOrCreateSyncRun('worker')`). -/
def bootstrapChannel : String := "worker"

/-- Modelled from the spec: `processNext` resolves its run as
`joinOrCreateRun(account, overrides.triggeredBy ?? defaultChannel)`; the
engine source (not in this repository) is documented to default
`triggeredBy` to the channel label "processNext". -/
def processNextDefaultChannel : String := "processNext"

/-- Modelled from the spec: the trigger channel `processNext` joins or
creates a run under, given the caller's optional `triggeredBy` override. -/
def resolveChannel (triggeredBy : Option String) : String :=
  match triggeredBy with
  | some t => t
  | none => processNextDefaultChannel

/-- Modelled from the spec: a Run is scoped to `(account_id, triggered_by)`
with at most one open run per such pair, so `joinOrCreateRun` yields the run
identified by that key. -/
def joinOrCreateRun (accountId channel : String) : String × String :=
  (accountId, channel)

/-- Run key the bootstrap enqueue joins or creates. -/
def bootstrapRunKey (accountId : String) : String × String :=
  joinOrCreateRun accountId bootstrapChannel

/-- Run key the worker's message processing joins or creates: the worker
passes no `runId` and no `triggeredBy`, so `processNext` falls back to its
default channel. -/
def processingRunKey (accountId : String) : String × String :=
  joinOrCreateRun accountId (resolveChannel none)

end SyncEngine

namespace SyncEngine

/-! ## Pagination engine, modelled from the spec

The engine class `StripeSync` (file `packages/sync-engine/src/stripeSync.ts`)
is published on npm and its source is not part of this repository; only its
caller, the worker edge function, is.  The definitions below model the
ObjectRun lifecycle and `processNext` from the specification text
(sections 3, 4.2, 4.3, 7). -/

/-- ObjectRun status; transitions are monotonic
pending to running to a terminal state (complete or error). -/
inductive ObjStatus where
  | pending
  | running
  | complete
  | error
deriving DecidableEq, Repr

/-- One item returned by the Object Source: a natural key plus its
"created" watermark. -/
structure Item where
  id : String
  created : Nat
deriving DecidableEq, Repr

/-- One page from the Object Source: items plus the continuation flag. -/
structure Page where
  items : List Item
  hasMore : Bool
deriving DecidableEq, Repr

/-- Result of one fetch attempt against the Object Source: a page, or a
transient network or storage failure. -/
inductive Fetched where
  | page (p : Page)
  | ioError (message : String)

/-- The result record `processNext` returns to its caller. -/
structure PNOut where
  processed : Nat
  hasMore : Bool
deriving DecidableEq, Repr

/-- Modelled from the spec: state of one object type for the current run
plus the two durable stores `processNext` touches.  `status`, `runCursor`
(the in-run maximum "created" watermark), `pageCursor` and `errorDetail`
form the current ObjectRun row; `storedCursor` is the durable incremental
cursor inherited from the previous completed run (Cursor Store); `writes`
is the log of Entity Store writes. -/
structure PNState where
  status : ObjStatus
  runCursor : Option Nat
  pageCursor : Option String
  errorDetail : Option String
  storedCursor : Option Nat
  writes : List Item
deriving DecidableEq, Repr

/-- Modelled from the spec: the effective incremental-cursor filter — the
explicit override if given, else the previous run's stored cursor, else
unbounded (first-ever sync). -/
def effectiveFilter (createdOverride : Option Nat) (s : PNState) :
    Option Nat :=
  match createdOverride with
  | some c => some c
  | none => s.storedCursor

/-- Maximum "created" watermark across a page's items, folded onto the
watermark accumulated so far in this run (kept `none` until an item is
observed). -/
def bumpWatermark (c : Option Nat) (items : List Item) : Option Nat :=
  items.foldl (fun acc it => some (max (acc.getD 0) it.created)) c

/-- Modelled from the spec: one unit of work (spec section 4.3).
`claimGranted` is the answer of the atomic `tryClaim` gate when the
ObjectRun is pending.  Steps: if the status is already terminal, return
`{processed: 0, hasMore: false}` with no writes; if pending and the claim
is denied, return `{processed: 0, hasMore: true}` with no mutation;
otherwise fetch one page at (effective filter, page cursor).  A fetch
failure calls `fail` (status error, cursors untouched) and propagates.  A
page with `hasMore` and zero items is a protocol violation: `fail` rather
than loop.  Otherwise each item is written to the Entity Store; with no
more pages, `complete` stores the maximum observed watermark (never
decreasing below the inherited cursor) and clears the page cursor; with
more pages, the page cursor advances to the last item's id. -/
def processNext (claimGranted : Bool) (createdOverride : Option Nat)
    (src : Option Nat → Option String → Fetched) (s : PNState) :
    Except String PNOut × PNState :=
  if s.status = .complete ∨ s.status = .error then
    (.ok ⟨0, false⟩, s)
  else if s.status = .pending ∧ claimGranted = false then
    (.ok ⟨0, true⟩, s)
  else
    let s1 : PNState := { s with status := .running }
    match src (effectiveFilter createdOverride s) s.pageCursor with
    | .ioError msg =>
        (.error msg, { s1 with status := .error, errorDetail := some msg })
    | .page pg =>
        if pg.hasMore ∧ pg.items = [] then
          (.error "protocol violation",
           { s1 with status := .error,
                     errorDetail := some "protocol violation" })
        else
          let s2 : PNState := { s1 with writes := s1.writes ++ pg.items }
          let w : Option Nat := bumpWatermark s2.runCursor pg.items
          if pg.hasMore then
            (.ok ⟨pg.items.length, true⟩,
             { s2 with runCursor := w,
                       pageCursor := (pg.items.getLast?).map Item.id })
          else
            (.ok ⟨pg.items.length, false⟩,
             { s2 with status := .complete, runCursor := w,
                       pageCursor := none,
                       storedCursor :=
                         match w with
                         | none => s2.storedCursor
                         | some x => some (max x (s2.storedCursor.getD 0)) })

/-! ## ObjectRun concurrency gate, modelled from the spec

The `tryClaim` gate lives in the npm-published engine; the migration in
this repository (`ALTER TABLE stripe._sync_runs ALTER COLUMN max_concurrent
SET DEFAULT 5`) shows the per-run limit it enforces. -/

/-- Modelled from the spec: the ObjectRun rows of one run — an association
list from object type to status, with at most one row per object type in
the real store — together with the run's `max_concurrent` limit. -/
structure RunState where
  maxConcurrent : Nat
  objs : List (String × ObjStatus)
deriving DecidableEq, Repr

/-- Number of ObjectRuns of the run currently in status running. -/
def runningCount (objs : List (String × ObjStatus)) : Nat :=
  (objs.filter (fun p => decide (p.2 = ObjStatus.running))).length

/-- Status of the row for one object type (first matching row). -/
def statusOf (o : String) : List (String × ObjStatus) → Option ObjStatus
  | [] => none
  | p :: rest => if p.1 = o then some p.2 else statusOf o rest

/-- Overwrite the status of the row for one object type (the row is unique
in the real store; the model updates the first matching row). -/
def setStatus (o : String) (st : ObjStatus) :
    List (String × ObjStatus) → List (String × ObjStatus)
  | [] => []
  | p :: rest =>
      if p.1 = o then (p.1, st) :: rest else p :: setStatus o st rest

/-- Modelled from the spec: `tryClaim` atomically counts ObjectRuns in
status running for the run; if the count is below `max_concurrent` it
transitions the pending target to running and returns claimed, otherwise
it returns not-claimed without mutating state. -/
def tryClaim (o : String) (r : RunState) : Bool × RunState :=
  if runningCount r.objs < r.maxConcurrent ∧
      statusOf o r.objs = some .pending then
    (true, { r with objs := setStatus o .running r.objs })
  else (false, r)

/-- Modelled from the spec: `complete` transitions running to complete. -/
def completeObj (o : String) (r : RunState) : RunState :=
  if statusOf o r.objs = some .running then
    { r with objs := setStatus o .complete r.objs }
  else r

/-- Modelled from the spec: `fail` transitions running to error. -/
def failObj (o : String) (r : RunState) : RunState :=
  if statusOf o r.objs = some .running then
    { r with objs := setStatus o .error r.objs }
  else r

/-- One atomic operation on the shared Run and ObjectRun rows.  The spec
requires claim, complete and fail to be atomic with respect to each other,
so an arbitrary interleaving of concurrent workers is an arbitrary sequence
of these operations. -/
inductive RunOp where
  | claim (o : String)
  | complete (o : String)
  | fail (o : String)

/-- Apply one atomic operation. -/
def applyOp : RunOp → RunState → RunState
  | .claim o, r => (tryClaim o r).2
  | .complete o, r => completeObj o r
  | .fail o, r => failObj o r

/-- Apply an interleaving of atomic operations. -/
def applyOps (ops : List RunOp) (r : RunState) : RunState :=
  ops.foldl (fun t op => applyOp op t) r

/-- Whether an engine result is a success. -/
def exceptIsOk : Except String PNOut → Bool
  | .ok _ => true
  | .error _ => false

/-- Ordering on optional cursors: an absent cursor precedes everything, and
a present cursor never disappears or moves backward. -/
def cursorLe (a b : Option Nat) : Bool :=
  match a, b with
  | none, _ => true
  | some x, some y => decide (x ≤ y)
  | some _, none => false

/-- One step of the engine's life for a single object type: either a
`processNext` invocation, or opening a fresh run for the object type (new
pending ObjectRun row; the durable incremental cursor is inherited from the
previous completed run). -/
inductive EngineStep where
  | proc (claimGranted : Bool) (createdOverride : Option Nat)
      (src : Option Nat → Option String → Fetched)
  | fresh

/-- Apply one engine step to the state. -/
def runStep : EngineStep → PNState → PNState
  | .proc c o src, s => (processNext c o src s).2
  | .fresh, s => { s with status := .pending, runCursor := none,
                          pageCursor := none, errorDetail := none }

/-- Apply a sequence of engine steps. -/
def runSteps (steps : List EngineStep) (s : PNState) : PNState :=
  steps.foldl (fun t st => runStep st t) s

/-! ## Claims about the dispatcher -/

/-- C1: the dispatcher bootstraps a fresh sweep if and only if the read
batch is empty and the queue has zero items in flight; in that case it
enqueues exactly one message per known object type (the full object-type
list, once each when the list has no duplicates); if the batch is empty but
the in-flight count is positive, it skips: nothing enqueued, nothing
processed. -/
theorem dispatch_bootstrap_iff_empty_and_no_inflight
    (batch : List Msg) (inFlight : Nat) (objects : List String)
    (pn : String → PNResult) :
    (isBootstrap (dispatch batch inFlight objects pn) = true ↔
      batch = [] ∧ inFlight = 0) ∧
    (batch = [] → inFlight = 0 →
      enqueuedObjects (dispatch batch inFlight objects pn) = objects) ∧
    (batch = [] → inFlight = 0 → objects.Nodup → ∀ o ∈ objects,
      (enqueuedObjects (dispatch batch inFlight objects pn)).count o = 1) ∧
    (batch = [] → 0 < inFlight →
      dispatch batch inFlight objects pn = .skipped) := by
  refine ⟨?_, ?_, ?_, ?_⟩
  · constructor
    · intro h
      unfold dispatch at h
      by_cases hb : batch.isEmpty
      · have hbe : batch = [] := List.isEmpty_iff.mp hb
        by_cases hf : 0 < inFlight
        · simp [hb, hf, isBootstrap] at h
        · exact ⟨hbe, Nat.eq_zero_of_not_pos hf⟩
      · simp [hb, isBootstrap] at h
    · rintro ⟨hb, hf⟩
      subst hb hf
      simp [dispatch, isBootstrap]
  · intro hb hf
    subst hb hf
    simp [dispatch, enqueuedObjects]
  · intro hb hf hnd o ho
    subst hb hf
    simpa [dispatch, enqueuedObjects] using List.count_eq_one_of_mem hnd ho
  · intro hb hf
    subst hb
    simp [dispatch, hf]

/-- C1 witness: at a concrete empty batch with zero in flight the
dispatcher bootstraps and enqueues exactly the two known object types;
with one message in flight it skips. -/
theorem dispatch_bootstrap_iff_empty_and_no_inflight_witness :
    isBootstrap (dispatch [] 0 ["charge", "invoice"] (fun _ => .ok 0 false))
      = true ∧
    enqueuedObjects (dispatch [] 0 ["charge", "invoice"]
      (fun _ => .ok 0 false)) = ["charge", "invoice"] ∧
    (enqueuedObjects (dispatch [] 0 ["charge", "invoice"]
      (fun _ => .ok 0 false))).count "charge" = 1 ∧
    dispatch [] 1 ["charge"] (fun _ => .ok 0 false) = .skipped := by
  refine ⟨?_, ?_, ?_, ?_⟩
  · exact (dispatch_bootstrap_iff_empty_and_no_inflight [] 0
      ["charge", "invoice"] (fun _ => .ok 0 false)).1.mpr ⟨rfl, rfl⟩
  · exact (dispatch_bootstrap_iff_empty_and_no_inflight [] 0
      ["charge", "invoice"] (fun _ => .ok 0 false)).2.1 rfl rfl
  · exact (dispatch_bootstrap_iff_empty_and_no_inflight [] 0
      ["charge", "invoice"] (fun _ => .ok 0 false)).2.2.1 rfl rfl
      (by decide) "charge" (by decide)
  · exact (dispatch_bootstrap_iff_empty_and_no_inflight [] 1
      ["charge"] (fun _ => .ok 0 false)).2.2.2 rfl (by decide)

/-- C2: for every message of a non-empty batch, the dispatcher consults
`processNext` for the message's object type; when the call returns a result
(terminated or no-op), the message is acknowledged (deleted), and exactly
when the result signals `hasMore = true` one identical message naming the
same object type is re-enqueued. -/
theorem dispatch_ack_and_requeue_on_result
    (batch : List Msg) (inFlight : Nat) (objects : List String)
    (pn : String → PNResult) (m : Msg) (p : Nat) (h : Bool)
    (hm : m ∈ batch) (hr : pn m.object = .ok p h) :
    dispatch batch inFlight objects pn
      = .processed (batch.map (processMsg pn)) ∧
    processMsg pn m ∈ outcomesOf (dispatch batch inFlight objects pn) ∧
    (processMsg pn m).acked = true ∧
    (processMsg pn m).sent = (if h then some m.object else none) ∧
    (processMsg pn m).processed = p ∧
    (processMsg pn m).hasMore = h := by
  have hne : ¬ batch.isEmpty := by
    cases batch with
    | nil => cases hm
    | cons a l => simp
  refine ⟨by simp [dispatch, hne], ?_, ?_, ?_, ?_, ?_⟩
  · simp only [dispatch, hne, if_false, outcomesOf]
    exact List.mem_map_of_mem (processMsg pn) hm
  · simp [processMsg, hr]
  · simp [processMsg, hr]
  · simp [processMsg, hr]
  · simp [processMsg, hr]

/-- C2 witness: a concrete batch where the engine reports one processed page
with more to come: the message is deleted and an identical message for the
same object type re-enqueued. -/
theorem dispatch_ack_and_requeue_on_result_witness :
    dispatch [⟨1, "charge"⟩] 0 [] (fun _ => .ok 3 true)
      = .processed [processMsg (fun _ => .ok 3 true) ⟨1, "charge"⟩] ∧
    processMsg (fun _ => .ok 3 true) ⟨1, "charge"⟩
      ∈ outcomesOf (dispatch [⟨1, "charge"⟩] 0 [] (fun _ => .ok 3 true)) ∧
    (processMsg (fun _ => .ok 3 true) ⟨1, "charge"⟩).acked = true ∧
    (processMsg (fun _ => .ok 3 true) ⟨1, "charge"⟩).sent
      = (if true then some "charge" else none) ∧
    (processMsg (fun _ => .ok 3 true) ⟨1, "charge"⟩).processed = 3 ∧
    (processMsg (fun _ => .ok 3 true) ⟨1, "charge"⟩).hasMore = true :=
  dispatch_ack_and_requeue_on_result [⟨1, "charge"⟩] 0 []
    (fun _ => .ok 3 true) ⟨1, "charge"⟩ 3 true (by decide) rfl

/-- C3: when `processNext` raises a failure for a message, the dispatcher
leaves the message un-acknowledged (no delete) and re-enqueues nothing for
it, reporting only a per-message error field; nothing in the outcome retries
the message in-process, so the only retry path is the queue's redelivery
after the visibility timeout. -/
theorem dispatch_leaves_failed_message_unacked
    (batch : List Msg) (inFlight : Nat) (objects : List String)
    (pn : String → PNResult) (m : Msg) (e : String)
    (hm : m ∈ batch) (hr : pn m.object = .err e) :
    processMsg pn m ∈ outcomesOf (dispatch batch inFlight objects pn) ∧
    (processMsg pn m).acked = false ∧
    (processMsg pn m).sent = none ∧
    (processMsg pn m).error = some e ∧
    (processMsg pn m).processed = 0 ∧
    (processMsg pn m).hasMore = false := by
  have hne : ¬ batch.isEmpty := by
    cases batch with
    | nil => cases hm
    | cons a l => simp
  refine ⟨?_, ?_, ?_, ?_, ?_, ?_⟩
  · simp only [dispatch, hne, if_false, outcomesOf]
    exact List.mem_map_of_mem (processMsg pn) hm
  · simp [processMsg, hr]
  · simp [processMsg, hr]
  · simp [processMsg, hr]
  · simp [processMsg, hr]
  · simp [processMsg, hr]

/-- C3 witness: a concrete failing message is neither deleted nor
re-enqueued and surfaces only its error field. -/
theorem dispatch_leaves_failed_message_unacked_witness :
    processMsg (fun _ => .err "boom") ⟨7, "invoice"⟩
      ∈ outcomesOf (dispatch [⟨7, "invoice"⟩] 0 [] (fun _ => .err "boom")) ∧
    (processMsg (fun _ => .err "boom") ⟨7, "invoice"⟩).acked = false ∧
    (processMsg (fun _ => .err "boom") ⟨7, "invoice"⟩).sent = none ∧
    (processMsg (fun _ => .err "boom") ⟨7, "invoice"⟩).error = some "boom" ∧
    (processMsg (fun _ => .err "boom") ⟨7, "invoice"⟩).processed = 0 ∧
    (processMsg (fun _ => .err "boom") ⟨7, "invoice"⟩).hasMore = false :=
  dispatch_leaves_failed_message_unacked [⟨7, "invoice"⟩] 0 []
    (fun _ => .err "boom") ⟨7, "invoice"⟩ "boom" (by decide) rfl

/-- C4: no per-message failure aborts the batch: for every non-empty batch
the dispatcher returns one outcome per message, and the outcome at each
position is a function of that message alone (`processMsg pn`), so a failing
message surfaces only in its own entry while every other message is still
processed and its result returned. -/
theorem dispatch_batch_outcomes_independent
    (batch : List Msg) (inFlight : Nat) (objects : List String)
    (pn : String → PNResult) (hne : batch ≠ []) :
    (outcomesOf (dispatch batch inFlight objects pn)).length
      = batch.length ∧
    ∀ i : Nat, (outcomesOf (dispatch batch inFlight objects pn))[i]?
      = (batch[i]?).map (processMsg pn) := by
  have hb : ¬ batch.isEmpty := by
    cases batch with
    | nil => exact absurd rfl hne
    | cons a l => simp
  constructor
  · simp [dispatch, hb, outcomesOf]
  · intro i
    simp [dispatch, hb, outcomesOf]

/-- C4 witness: a concrete two-message batch where the first message fails
still yields two outcomes, each computed from its own message. -/
theorem dispatch_batch_outcomes_independent_witness :
    (outcomesOf (dispatch [⟨1, "charge"⟩, ⟨2, "invoice"⟩] 0 []
      (fun o => if o = "charge" then .err "boom" else .ok 2 false))).length
      = 2 ∧
    (outcomesOf (dispatch [⟨1, "charge"⟩, ⟨2, "invoice"⟩] 0 []
      (fun o => if o = "charge" then .err "boom" else .ok 2 false)))[1]?
      = some (processMsg
          (fun o => if o = "charge" then .err "boom" else .ok 2 false)
          ⟨2, "invoice"⟩) := by
  have h := dispatch_batch_outcomes_independent
    [⟨1, "charge"⟩, ⟨2, "invoice"⟩] 0 []
    (fun o => if o = "charge" then .err "boom" else .ok 2 false)
    (by decide)
  exact ⟨h.1, h.2 1⟩

/-- C10: the bootstrap enqueue joins or creates the run under the channel
label "worker", while message processing calls `processNext` with no
`triggeredBy` override and therefore joins or creates a run under
`processNext`'s default channel; the two run keys coincide exactly when the
default channel equals "worker", and with the default channel "processNext"
they differ, so the run that seeded the queue is not the run that processing
advances. -/
theorem worker_bootstrap_and_processing_channels_differ
    (accountId : String) :
    bootstrapRunKey accountId = (accountId, "worker") ∧
    processingRunKey accountId = (accountId, processNextDefaultChannel) ∧
    (processingRunKey accountId = bootstrapRunKey accountId ↔
      processNextDefaultChannel = bootstrapChannel) ∧
    processingRunKey accountId ≠ bootstrapRunKey accountId := by
  refine ⟨rfl, rfl, ?_, ?_⟩
  · constructor
    · intro h
      exact congrArg Prod.snd h
    · intro h
      simp [processingRunKey, bootstrapRunKey, joinOrCreateRun,
        resolveChannel, h]
  · intro h
    have := congrArg Prod.snd h
    simp [processingRunKey, bootstrapRunKey, joinOrCreateRun,
      resolveChannel, processNextDefaultChannel, bootstrapChannel] at this

/-- C10 witness: for a concrete account, the bootstrap run key and the
processing run key are distinct runs under distinct channel labels. -/
theorem worker_bootstrap_and_processing_channels_differ_witness :
    bootstrapRunKey "acct_1" = ("acct_1", "worker") ∧
    processingRunKey "acct_1" = ("acct_1", processNextDefaultChannel) ∧
    (processingRunKey "acct_1" = bootstrapRunKey "acct_1" ↔
      processNextDefaultChannel = bootstrapChannel) ∧
    processingRunKey "acct_1" ≠ bootstrapRunKey "acct_1" :=
  worker_bootstrap_and_processing_channels_differ "acct_1"

/-! ## Claims about the pagination engine -/

/-- On a terminal ObjectRun, `processNext` is the identity no-op. -/
theorem processNext_of_terminal (c : Bool) (o : Option Nat)
    (src : Option Nat → Option String → Fetched) (s : PNState)
    (ht : s.status = .complete ∨ s.status = .error) :
    processNext c o src s = (.ok ⟨0, false⟩, s) := by
  simp only [processNext, if_pos ht]

/-- C5: when the ObjectRun is already terminal (complete or error),
`processNext` returns `{processed: 0, hasMore: false}` and performs no
writes to the Entity Store or the Cursor Store, so redelivery of an
already-finished message is a no-op. -/
theorem processNext_terminal_noop (c : Bool) (o : Option Nat)
    (src : Option Nat → Option String → Fetched) (s : PNState)
    (ht : s.status = .complete ∨ s.status = .error) :
    processNext c o src s = (.ok ⟨0, false⟩, s) ∧
    (processNext c o src s).2.writes = s.writes ∧
    (processNext c o src s).2.storedCursor = s.storedCursor := by
  have h := processNext_of_terminal c o src s ht
  exact ⟨h, by rw [h], by rw [h]⟩

/-- C5 witness: a completed ObjectRun is untouched by a redelivered
message, whatever the source would answer. -/
theorem processNext_terminal_noop_witness :
    processNext true none (fun _ _ => .page ⟨[⟨"it_1", 9⟩], true⟩)
      ⟨.complete, none, none, none, some 5, []⟩
      = (.ok ⟨0, false⟩, ⟨.complete, none, none, none, some 5, []⟩) ∧
    (processNext true none (fun _ _ => .page ⟨[⟨"it_1", 9⟩], true⟩)
      ⟨.complete, none, none, none, some 5, []⟩).2.writes = [] ∧
    (processNext true none (fun _ _ => .page ⟨[⟨"it_1", 9⟩], true⟩)
      ⟨.complete, none, none, none, some 5, []⟩).2.storedCursor = some 5 :=
  processNext_terminal_noop true none
    (fun _ _ => .page ⟨[⟨"it_1", 9⟩], true⟩)
    ⟨.complete, none, none, none, some 5, []⟩ (Or.inl rfl)

/-- C6: when the ObjectRun is pending and the `tryClaim` gate denies the
claim (concurrency limit reached), `processNext` returns
`{processed: 0, hasMore: true}` — a successful result, not an error — and
mutates no state, signalling the caller to retry later. -/
theorem processNext_claim_denied (o : Option Nat)
    (src : Option Nat → Option String → Fetched) (s : PNState)
    (hp : s.status = .pending) :
    processNext false o src s = (.ok ⟨0, true⟩, s) := by
  simp [processNext, hp]

/-- C6 witness: a pending ObjectRun with the claim denied is returned to
the caller unchanged with `hasMore = true`. -/
theorem processNext_claim_denied_witness :
    processNext false none (fun _ _ => .page ⟨[⟨"it_1", 9⟩], false⟩)
      ⟨.pending, none, none, none, some 5, []⟩
      = (.ok ⟨0, true⟩, ⟨.pending, none, none, none, some 5, []⟩) :=
  processNext_claim_denied none (fun _ _ => .page ⟨[⟨"it_1", 9⟩], false⟩)
    ⟨.pending, none, none, none, some 5, []⟩ rfl

/-- C7: when the fetched page reports more pages but contains zero items,
`processNext` fails the ObjectRun — its status becomes error — and every
subsequent `processNext` for that object type within the run is a no-op
that never consults the source again (the conclusion holds for an
arbitrary source function). -/
theorem processNext_protocol_violation_fails (c : Bool) (o : Option Nat)
    (src : Option Nat → Option String → Fetched) (s : PNState)
    (hs : s.status = .running ∨ (s.status = .pending ∧ c = true))
    (hv : src (effectiveFilter o s) s.pageCursor = .page ⟨[], true⟩) :
    (processNext c o src s).2.status = .error ∧
    ∀ (c' : Bool) (o' : Option Nat)
      (src' : Option Nat → Option String → Fetched),
      processNext c' o' src' ((processNext c o src s).2)
        = (.ok ⟨0, false⟩, (processNext c o src s).2) := by
  have hstat : (processNext c o src s).2.status = .error := by
    rcases hs with hr | ⟨hp, hc⟩
    · simp [processNext, hr, hv]
    · subst hc
      simp [processNext, hp, hv]
  refine ⟨hstat, fun c' o' src' => ?_⟩
  exact processNext_of_terminal c' o' src' _ (Or.inr hstat)

/-- C7 witness: against a source answering an empty page with
`hasMore = true`, a running ObjectRun transitions to error and a retry
against a healthy source is still a no-op. -/
theorem processNext_protocol_violation_fails_witness :
    (processNext true none (fun _ _ => .page ⟨[], true⟩)
      ⟨.running, none, none, none, some 5, []⟩).2.status = .error ∧
    ∀ (c' : Bool) (o' : Option Nat)
      (src' : Option Nat → Option String → Fetched),
      processNext c' o' src'
        ((processNext true none (fun _ _ => .page ⟨[], true⟩)
          ⟨.running, none, none, none, some 5, []⟩).2)
        = (.ok ⟨0, false⟩,
           (processNext true none (fun _ _ => .page ⟨[], true⟩)
             ⟨.running, none, none, none, some 5, []⟩).2) :=
  processNext_protocol_violation_fails true none
    (fun _ _ => .page ⟨[], true⟩)
    ⟨.running, none, none, none, some 5, []⟩ (Or.inl rfl) rfl

/-- cursorLe is reflexive. -/
theorem cursorLe_refl (a : Option Nat) : cursorLe a a = true := by
  cases a <;> simp [cursorLe]

/-- cursorLe is transitive. -/
theorem cursorLe_trans (a b c : Option Nat) (hab : cursorLe a b = true)
    (hbc : cursorLe b c = true) : cursorLe a c = true := by
  cases a with
  | none => simp [cursorLe]
  | some x =>
      cases b with
      | none => simp [cursorLe] at hab
      | some y =>
          cases c with
          | none => simp [cursorLe] at hbc
          | some z =>
              simp [cursorLe] at hab hbc ⊢
              omega

/-- The cursor stored on completion never moves backward. -/
theorem cursorLe_completeStore (w old : Option Nat) :
    cursorLe old
      (match w with
       | none => old
       | some x => some (max x (old.getD 0))) = true := by
  cases w with
  | none => exact cursorLe_refl old
  | some x =>
      cases old with
      | none => simp [cursorLe]
      | some y => simp [cursorLe]

/-- A single engine step never moves the stored incremental cursor
backward. -/
theorem cursorLe_runStep (st : EngineStep) (s : PNState) :
    cursorLe s.storedCursor (runStep st s).storedCursor = true := by
  cases st with
  | fresh => exact cursorLe_refl _
  | proc c o src =>
      show cursorLe s.storedCursor (processNext c o src s).2.storedCursor
        = true
      by_cases h1 : s.status = .complete ∨ s.status = .error
      · rw [processNext_of_terminal c o src s h1]
        exact cursorLe_refl _
      · by_cases h2 : s.status = .pending ∧ c = false
        · simp only [processNext, if_neg h1, if_pos h2]
          exact cursorLe_refl _
        · cases hsrc : src (effectiveFilter o s) s.pageCursor with
          | ioError msg =>
              simp only [processNext, if_neg h1, if_neg h2, hsrc]
              exact cursorLe_refl _
          | page pg =>
              by_cases h3 : pg.hasMore = true ∧ pg.items = []
              · simp only [processNext, if_neg h1, if_neg h2, hsrc,
                  if_pos h3]
                exact cursorLe_refl _
              · cases hm : pg.hasMore with
                | true =>
                    simp only [processNext, if_neg h1, if_neg h2, hsrc]
                    rw [if_neg h3, if_pos hm]
                    exact cursorLe_refl _
                | false =>
                    have hm' : ¬ pg.hasMore = true := by simp [hm]
                    simp only [processNext, if_neg h1, if_neg h2, hsrc]
                    rw [if_neg h3, if_neg hm']
                    exact cursorLe_completeStore _ _

/-- Across any sequence of engine steps, the stored incremental cursor is
non-decreasing. -/
theorem cursorLe_runSteps (steps : List EngineStep) (s : PNState) :
    cursorLe s.storedCursor (runSteps steps s).storedCursor = true := by
  induction steps generalizing s with
  | nil => exact cursorLe_refl _
  | cons st rest ih =>
      have hstep := cursorLe_runStep st s
      have hrest := ih (runStep st s)
      have hfold : runSteps (st :: rest) s = runSteps rest (runStep st s) :=
        rfl
      rw [hfold]
      exact cursorLe_trans _ _ _ hstep hrest

/-- A failing `processNext` leaves the stored incremental cursor
untouched. -/
theorem storedCursor_of_err (c : Bool) (o : Option Nat)
    (src : Option Nat → Option String → Fetched) (t : PNState)
    (herr : exceptIsOk (processNext c o src t).1 = false) :
    (processNext c o src t).2.storedCursor = t.storedCursor := by
  by_cases h1 : t.status = .complete ∨ t.status = .error
  · rw [processNext_of_terminal c o src t h1]
  · by_cases h2 : t.status = .pending ∧ c = false
    · simp only [processNext, if_neg h1, if_pos h2]
    · cases hsrc : src (effectiveFilter o t) t.pageCursor with
      | ioError msg =>
          simp only [processNext, if_neg h1, if_neg h2, hsrc]
      | page pg =>
          by_cases h3 : pg.hasMore = true ∧ pg.items = []
          · simp only [processNext, if_neg h1, if_neg h2, hsrc, if_pos h3]
          · cases hm : pg.hasMore with
            | true =>
                simp only [processNext, if_neg h1, if_neg h2, hsrc] at herr
                rw [if_neg h3, if_pos hm] at herr
                simp [exceptIsOk] at herr
            | false =>
                have hm' : ¬ pg.hasMore = true := by simp [hm]
                simp only [processNext, if_neg h1, if_neg h2, hsrc] at herr
                rw [if_neg h3, if_neg hm'] at herr
                simp [exceptIsOk] at herr

/-- C9: the incremental cursor for an object type is non-decreasing across
any sequence of engine steps — in particular across successive completed
runs — because `complete` stores the maximum observed "created" watermark
clamped below by the inherited cursor, and a failing `processNext` leaves
the previously stored cursor untouched. -/
theorem cursor_monotone_across_runs (steps : List EngineStep) (s : PNState)
    (c : Bool) (o : Option Nat)
    (src : Option Nat → Option String → Fetched) (t : PNState)
    (herr : exceptIsOk (processNext c o src t).1 = false) :
    cursorLe s.storedCursor (runSteps steps s).storedCursor = true ∧
    (processNext c o src t).2.storedCursor = t.storedCursor :=
  ⟨cursorLe_runSteps steps s, storedCursor_of_err c o src t herr⟩

/-- C9 witness: a concrete two-run history — complete a two-page sweep,
open a fresh run, fail on a network error — only ever advances the stored
cursor, and the failing call leaves it untouched. -/
theorem cursor_monotone_across_runs_witness :
    cursorLe (some 5)
      (runSteps
        [.proc true none (fun _ _ => .page ⟨[⟨"a", 7⟩], true⟩),
         .proc true none (fun _ _ => .page ⟨[⟨"b", 9⟩], false⟩),
         .fresh,
         .proc true none (fun _ _ => .ioError "net")]
        ⟨.running, none, none, none, some 5, []⟩).storedCursor = true ∧
    (processNext true none (fun _ _ => .ioError "net")
      ⟨.running, none, none, none, some 9, []⟩).2.storedCursor = some 9 :=
  cursor_monotone_across_runs
    [.proc true none (fun _ _ => .page ⟨[⟨"a", 7⟩], true⟩),
     .proc true none (fun _ _ => .page ⟨[⟨"b", 9⟩], false⟩),
     .fresh,
     .proc true none (fun _ _ => .ioError "net")]
    ⟨.running, none, none, none, some 5, []⟩
    true none (fun _ _ => .ioError "net")
    ⟨.running, none, none, none, some 9, []⟩ rfl

/-! ## Claims about the concurrency gate -/

/-- runningCount of a cons, split into the head's contribution. -/
theorem runningCount_cons (p : String × ObjStatus)
    (l : List (String × ObjStatus)) :
    runningCount (p :: l)
      = (if p.2 = ObjStatus.running then 1 else 0) + runningCount l := by
  by_cases hr : p.2 = ObjStatus.running
  · simp [runningCount, List.filter_cons, hr, Nat.add_comm]
  · simp [runningCount, List.filter_cons, hr]

/-- Claiming a pending row raises the running count by exactly one. -/
theorem runningCount_setStatus_pending (o : String)
    (l : List (String × ObjStatus))
    (h : statusOf o l = some ObjStatus.pending) :
    runningCount (setStatus o ObjStatus.running l)
      = runningCount l + 1 := by
  induction l with
  | nil => simp [statusOf] at h
  | cons p rest ih =>
      by_cases hp : p.1 = o
      · simp only [statusOf, if_pos hp, Option.some.injEq] at h
        simp only [setStatus, if_pos hp]
        rw [runningCount_cons, runningCount_cons, h]
        simp [Nat.add_comm]
      · simp only [statusOf, if_neg hp] at h
        simp only [setStatus, if_neg hp]
        rw [runningCount_cons, runningCount_cons, ih h]
        omega

/-- Writing any non-running status never raises the running count. -/
theorem runningCount_setStatus_le (o : String) (st : ObjStatus)
    (l : List (String × ObjStatus)) (hst : st ≠ ObjStatus.running) :
    runningCount (setStatus o st l) ≤ runningCount l := by
  induction l with
  | nil => simp [setStatus]
  | cons p rest ih =>
      by_cases hp : p.1 = o
      · simp only [setStatus, if_pos hp]
        rw [runningCount_cons, runningCount_cons]
        simp only [if_neg hst]
        split <;> omega
      · simp only [setStatus, if_neg hp]
        rw [runningCount_cons, runningCount_cons]
        omega

/-- Atomic operations never change the run's concurrency limit. -/
theorem applyOp_maxConcurrent (op : RunOp) (r : RunState) :
    (applyOp op r).maxConcurrent = r.maxConcurrent := by
  cases op with
  | claim o =>
      show (tryClaim o r).2.maxConcurrent = r.maxConcurrent
      unfold tryClaim
      split <;> rfl
  | complete o =>
      show (completeObj o r).maxConcurrent = r.maxConcurrent
      unfold completeObj
      split <;> rfl
  | fail o =>
      show (failObj o r).maxConcurrent = r.maxConcurrent
      unfold failObj
      split <;> rfl

/-- One atomic operation preserves the concurrency bound. -/
theorem applyOp_bound (op : RunOp) (r : RunState)
    (hinv : runningCount r.objs ≤ r.maxConcurrent) :
    runningCount (applyOp op r).objs ≤ r.maxConcurrent := by
  cases op with
  | claim o =>
      show runningCount (tryClaim o r).2.objs ≤ r.maxConcurrent
      unfold tryClaim
      split
      · rename_i hcond
        show runningCount (setStatus o ObjStatus.running r.objs)
          ≤ r.maxConcurrent
        rw [runningCount_setStatus_pending o r.objs hcond.2]
        omega
      · exact hinv
  | complete o =>
      show runningCount (completeObj o r).objs ≤ r.maxConcurrent
      unfold completeObj
      split
      · exact le_trans
          (runningCount_setStatus_le o ObjStatus.complete r.objs
            (by simp)) hinv
      · exact hinv
  | fail o =>
      show runningCount (failObj o r).objs ≤ r.maxConcurrent
      unfold failObj
      split
      · exact le_trans
          (runningCount_setStatus_le o ObjStatus.error r.objs
            (by simp)) hinv
      · exact hinv

/-- C8: under any interleaving of atomic claim, complete and fail
operations, a run with limit `maxConcurrent = k` never holds more than `k`
ObjectRuns in status running at any point; and when the running count has
reached the limit, `tryClaim` returns claimed = false and mutates
nothing. -/
theorem concurrency_bound_under_interleaving (ops : List RunOp)
    (r : RunState) (o : String)
    (hinv : runningCount r.objs ≤ r.maxConcurrent) :
    runningCount (applyOps ops r).objs ≤ r.maxConcurrent ∧
    (r.maxConcurrent ≤ runningCount r.objs → tryClaim o r = (false, r)) := by
  constructor
  · induction ops generalizing r with
    | nil => exact hinv
    | cons op rest ih =>
        have h1 := applyOp_bound op r hinv
        have h2 := applyOp_maxConcurrent op r
        have : runningCount (applyOps rest (applyOp op r)).objs
            ≤ (applyOp op r).maxConcurrent := ih (applyOp op r) (h2 ▸ h1)
        calc runningCount (applyOps (op :: rest) r).objs
            = runningCount (applyOps rest (applyOp op r)).objs := rfl
          _ ≤ (applyOp op r).maxConcurrent := this
          _ = r.maxConcurrent := h2
  · intro hfull
    unfold tryClaim
    rw [if_neg]
    rintro ⟨hlt, -⟩
    omega

/-- C8 witness: with limit 1 and one object already running, a claim for
the second object is denied without mutation; after the running object
completes and the claim is retried, the bound still holds on the concrete
interleaving. -/
theorem concurrency_bound_under_interleaving_witness :
    runningCount (applyOps [.claim "b", .complete "a", .claim "b"]
      ⟨1, [("a", .running), ("b", .pending)]⟩).objs ≤ 1 ∧
    tryClaim "b" ⟨1, [("a", .running), ("b", .pending)]⟩
      = (false, ⟨1, [("a", .running), ("b", .pending)]⟩) := by
  have h := concurrency_bound_under_interleaving
    [.claim "b", .complete "a", .claim "b"]
    ⟨1, [("a", .running), ("b", .pending)]⟩ "b" (by decide)
  exact ⟨h.1, h.2 (by decide)⟩

end SyncEngine
